import Mathlib

/-!
Shallow embedding of the quid-pr-quo escrow coordination engine.

Source of authority:
  * `src/src/escrow.ts` — the `EscrowBox` durable object: `handleProcessEscrow`
    (the ProcessCommand of the spec) and `handleStoreToken`.
  * `src/unnamed/part_001` (`utils.ts`) — `getUserToken` (the credential store's
    GetValidAccess), `approvePr` (the outbound approval client, modelled as an
    oracle parameter).

Modelling conventions:
  * The durable-object storage is a string-keyed KV map.  Pledge keys are
    `pledge:USERA:PRAUTHOR` and token keys are `token:USERID`; since GitHub
    logins contain no colon, the key strings are in bijection with the pairs,
    and we model the two key namespaces as two association lists, pledges keyed
    by the ordered pair of user names and tokens keyed by the user id.
  * `Date.now()` is passed in as an integer parameter `now` (milliseconds).
  * The network collaborators are oracles: `rc` (the identity-provider refresh
    call; `none` models a thrown error) and `ac` (the approval client;
    `.err msg` models a rejected promise with that message).
  * `Promise.all` of the two approval calls starts both calls and rejects with
    a failing call's reason; we take the first listed failure's message.
  * The engine's return value `{ type, message }` is modelled in two layers: a
    structured result (`EscrowResult`, one constructor per return site of
    `handleProcessEscrow`, carrying the data in scope there) and the faithful
    wire form produced by `renderResult`.
-/

/-- Pledge record stored under `pledge:userA:prAuthor` (escrow.ts `PledgeData`). -/
structure PledgeData where
  prNumber : Nat
  repo : String
  createdAt : Int
deriving DecidableEq

/-- Stored OAuth token record (utils.ts / escrow.ts `TokenData`). -/
structure TokenData where
  access : String
  refresh : String
  expires : Int
deriving DecidableEq

/-- The fields of the GitHub refresh response used by `getUserToken`
(`token`, `refresh_token`, `expires_in`); an absent/empty `refresh_token`
is the empty string (JS falsiness of `""`). -/
structure RefreshResp where
  token : String
  refreshTokenField : String
  expiresIn : Int
deriving DecidableEq

/-- Association-list lookup: the value at a key of the KV storage. -/
def alGet {κ β : Type} [DecidableEq κ] : List (κ × β) → κ → Option β
  | [], _ => none
  | (k2, v) :: rest, k => if k2 = k then some v else alGet rest k

/-- Association-list delete: `storage.delete(key)`. -/
def alRemove {κ β : Type} [DecidableEq κ] : List (κ × β) → κ → List (κ × β)
  | [], _ => []
  | (k2, v) :: rest, k =>
      if k2 = k then alRemove rest k else (k2, v) :: alRemove rest k

/-- Association-list update: `storage.put(key, value)` (KV assignment). -/
def alPut {κ β : Type} [DecidableEq κ] (m : List (κ × β)) (k : κ) (v : β) :
    List (κ × β) :=
  (k, v) :: alRemove m k

/-- All values stored at a given key, in storage order (observation used to
state the at-most-one-entry-per-key facts). -/
def valuesAt {κ β : Type} [DecidableEq κ] : List (κ × β) → κ → List β
  | [], _ => []
  | (k2, v) :: rest, k =>
      if k2 = k then v :: valuesAt rest k else valuesAt rest k

/-- `getUserToken` from utils.ts (part_001 lines 204-236): read the stored
token; refresh when `Date.now() > expires - 300000`, persisting the new
token (`refresh_token || old.refresh`, `expires = Date.now() + expires_in*1000`);
a failed refresh yields `none`.  Returns the token result, the token storage
after the call, and the number of refresh calls made. -/
def getUserToken (userId : String) (tokens : List (String × TokenData))
    (now : Int) (rc : String → Option RefreshResp) :
    Option String × List (String × TokenData) × Nat :=
  match alGet tokens userId with
  | none => (none, tokens, 0)
  | some tokenData =>
      if now > tokenData.expires - 300000 then
        match rc tokenData.refresh with
        | some refreshedToken =>
            let newTokenData : TokenData :=
              { access := refreshedToken.token,
                refresh :=
                  if refreshedToken.refreshTokenField = "" then tokenData.refresh
                  else refreshedToken.refreshTokenField,
                expires := now + refreshedToken.expiresIn * 1000 }
            (some newTokenData.access, alPut tokens userId newTokenData, 1)
        | none => (none, tokens, 1)
      else (some tokenData.access, tokens, 0)

/-- Which of the two parties lacked a token on the matched path
(the three `errorDetails` branches of escrow.ts lines 133-139). -/
inductive MissingParty where
  | bothMissing
  | offerorMissing
  | targetMissing
deriving DecidableEq

/-- Structured result of `handleProcessEscrow`: one constructor per return
site, carrying the data in scope at that return. -/
inductive EscrowResult where
  /-- escrow.ts line 88: `userA === prAuthor`. -/
  | selfApprovalRejected (userA : String)
  /-- escrow.ts line 95: `!prAuthor || !prAuthorId`. -/
  | authorUnknown
  /-- escrow.ts line 141: matched, but a token is missing. -/
  | awaitingAuthorizationMatched (userA prAuthor : String)
      (who : MissingParty) (oauthUrl : String)
  /-- escrow.ts line 164: an `approvePr` call threw. -/
  | approvalFailed (reason : String)
  /-- escrow.ts line 177: both approvals succeeded. -/
  | mutualApprovalCompleted (userA prAuthor : String)
      (prNumber : Nat) (repoFullName : String) (partner : PledgeData)
  /-- escrow.ts line 196: no match and userA has no token. -/
  | awaitingAuthorizationCreated (userA : String) (oauthUrl : String)
  /-- escrow.ts line 216: pledge recorded. -/
  | pledgeCreated (userA prAuthor : String) (prNumber : Nat)
deriving DecidableEq

/-- The inbound command body of `handleProcessEscrow`. -/
structure EscrowCommand where
  userA : String
  userAId : String
  prNumber : Nat
  repoFullName : String
  prAuthor : Option String
  prAuthorId : Option String
  workerUrl : String
  installationId : String
deriving DecidableEq

/-- The partition's durable storage: the pledge namespace and the token
namespace of the single KV store. -/
structure EscrowState where
  pledges : List ((String × String) × PledgeData)
  tokens : List (String × TokenData)
deriving DecidableEq

/-- Outcome of one `approvePr` call: resolved, or rejected with a message. -/
inductive ApproveOutcome where
  | ok
  | err (msg : String)
deriving DecidableEq

/-- One invocation of the approval client: (repo, prNumber, token). -/
abbrev ApprovalCall := String × Nat × String

/-- Result, post-state, and the approval-client invocations of one command. -/
abbrev StepOut := EscrowResult × EscrowState × List ApprovalCall

/-- The OAuth link `${workerUrl}/oauth/authorize?state=${installationId}`. -/
def oauthUrlOf (cmd : EscrowCommand) : String :=
  cmd.workerUrl ++ "/oauth/authorize?state=" ++ cmd.installationId

/-- Matched branch of `handleProcessEscrow` (escrow.ts lines 109-180): resolve
both tokens (token refreshes persist), error out if either is missing, invoke
the approval client for both sides, and only after both approvals succeed
delete the matched pledge. -/
def matchedBranch (cmd : EscrowCommand) (pa paId : String) (mp : PledgeData)
    (s : EscrowState) (now : Int) (rc : String → Option RefreshResp)
    (ac : String → Nat → String → ApproveOutcome) : StepOut :=
  let tA := getUserToken cmd.userAId s.tokens now rc
  let tB := getUserToken paId tA.2.1 now rc
  let s1 : EscrowState := { s with tokens := tB.2.1 }
  match tA.1, tB.1 with
  | none, none =>
      (.awaitingAuthorizationMatched cmd.userA pa .bothMissing (oauthUrlOf cmd), s1, [])
  | none, some _ =>
      (.awaitingAuthorizationMatched cmd.userA pa .offerorMissing (oauthUrlOf cmd), s1, [])
  | some _, none =>
      (.awaitingAuthorizationMatched cmd.userA pa .targetMissing (oauthUrlOf cmd), s1, [])
  | some a, some b =>
      let calls : List ApprovalCall :=
        [(cmd.repoFullName, cmd.prNumber, a), (mp.repo, mp.prNumber, b)]
      match ac cmd.repoFullName cmd.prNumber a with
      | .err msg => (.approvalFailed msg, s1, calls)
      | .ok =>
          match ac mp.repo mp.prNumber b with
          | .err msg => (.approvalFailed msg, s1, calls)
          | .ok =>
              (.mutualApprovalCompleted cmd.userA pa cmd.prNumber cmd.repoFullName mp,
               { s1 with pledges := alRemove s1.pledges (pa, cmd.userA) }, calls)

/-- Created branch of `handleProcessEscrow` (escrow.ts lines 181-220): resolve
userA's token first; if it is missing return the authorize error (no pledge is
written); otherwise record the pledge under `pledge:userA:prAuthor`. -/
def createdBranch (cmd : EscrowCommand) (pa : String) (s : EscrowState)
    (now : Int) (rc : String → Option RefreshResp) : StepOut :=
  let tA := getUserToken cmd.userAId s.tokens now rc
  let s1 : EscrowState := { s with tokens := tA.2.1 }
  match tA.1 with
  | none => (.awaitingAuthorizationCreated cmd.userA (oauthUrlOf cmd), s1, [])
  | some _ =>
      (.pledgeCreated cmd.userA pa cmd.prNumber,
       { s1 with
          pledges :=
            alPut s1.pledges (cmd.userA, pa)
              { prNumber := cmd.prNumber, repo := cmd.repoFullName, createdAt := now } },
       [])

/-- `handleProcessEscrow` (escrow.ts lines 85-221): self-approval guard, then
the author-unknown guard, then the direct keyed lookup of the reverse pledge
`pledge:prAuthor:userA` deciding between the matched and created branches. -/
def processEscrow (cmd : EscrowCommand) (s : EscrowState) (now : Int)
    (rc : String → Option RefreshResp)
    (ac : String → Nat → String → ApproveOutcome) : StepOut :=
  if cmd.prAuthor = some cmd.userA then
    (.selfApprovalRejected cmd.userA, s, [])
  else
    match cmd.prAuthor, cmd.prAuthorId with
    | some pa, some paId =>
        match alGet s.pledges (pa, cmd.userA) with
        | some mp => matchedBranch cmd pa paId mp s now rc ac
        | none => createdBranch cmd pa s now rc
    | _, _ => (.authorUnknown, s, [])

/-- The `{ type, message }` JSON body the durable object responds with. -/
structure ApiResult where
  type : String
  message : String
deriving DecidableEq

/-- The wire form of each return site of `handleProcessEscrow`: the `type`
tag and the exact template-literal message of the source. -/
def renderResult : EscrowResult → ApiResult
  | .selfApprovalRejected ua =>
      ⟨"error", "❌ @" ++ ua ++ " you cannot use /escrow-approve on your own PR. The escrow system is for mutual approval between different users."⟩
  | .authorUnknown =>
      ⟨"error", "❌ Could not determine PR author. This might not be a valid PR."⟩
  | .awaitingAuthorizationMatched ua pa who url =>
      ⟨"error",
        (match who with
         | .bothMissing => "Both @" ++ ua ++ " and @" ++ pa ++ " need to authorize"
         | .offerorMissing => "@" ++ ua ++ " needs to authorize"
         | .targetMissing => "@" ++ pa ++ " needs to authorize")
        ++ " the app for this repository. Visit: " ++ url⟩
  | .approvalFailed reason =>
      ⟨"error", "Failed to approve PRs: " ++ reason⟩
  | .mutualApprovalCompleted ua pa prNumber _repo partner =>
      ⟨"success", "🎉 Mutual approval completed! @" ++ pa ++ " approved @" ++ ua ++ "\x27s PR #" ++ toString partner.prNumber ++ " and @" ++ ua ++ " approved @" ++ pa ++ "\x27s PR #" ++ toString prNumber⟩
  | .awaitingAuthorizationCreated ua url =>
      ⟨"error", "@" ++ ua ++ " needs to authorize the app for this repository. Visit: " ++ url⟩
  | .pledgeCreated ua pa prNumber =>
      ⟨"pledge", "⏳ Escrow pledge created! @" ++ ua ++ " is offering to approve @" ++ pa ++ "\x27s PR #" ++ toString prNumber ++ ". Now waiting for @" ++ pa ++ " to write /escrow-approve on one of @" ++ ua ++ "\x27s PRs to complete the mutual approval."⟩

/-- Sequential execution of commands (with their `Date.now()` values) against
one partition, as serialized by the durable object: the per-command results
and the final state. -/
def runEscrow (rc : String → Option RefreshResp)
    (ac : String → Nat → String → ApproveOutcome) :
    EscrowState → List (EscrowCommand × Int) → List EscrowResult × EscrowState
  | s, [] => ([], s)
  | s, (c, t) :: rest =>
      let step := processEscrow c s t rc ac
      let tail := runEscrow rc ac step.2.1 rest
      (step.1 :: tail.1, tail.2)

/-- The pledge key consumed by a result, when it completed a mutual approval. -/
def consumedKey : EscrowResult → Option (String × String)
  | .mutualApprovalCompleted ua pa _ _ _ => some (pa, ua)
  | _ => none

/-- The pledge key inserted by a result, when it created a pledge. -/
def createdKey : EscrowResult → Option (String × String)
  | .pledgeCreated ua pa _ => some (ua, pa)
  | _ => none

/-! ## KV-map lemmas -/

theorem alGet_remove {κ β : Type} [DecidableEq κ] (m : List (κ × β)) (k k' : κ) :
    alGet (alRemove m k) k' = if k' = k then none else alGet m k' := by
  induction m with
  | nil => simp [alGet, alRemove]
  | cons hd tl ih =>
      obtain ⟨k2, v⟩ := hd
      by_cases h2 : k2 = k
      · subst h2
        by_cases h3 : k' = k2
        · subst h3; simp [alRemove, alGet, ih]
        · simp [alGet, alRemove, h3, ih, Ne.symm h3]
      · by_cases h3 : k2 = k'
        · subst h3
          simp [alGet, alRemove, h2, Ne.symm h2]
        · simp [alGet, alRemove, h2, h3, ih]

theorem alGet_put_self {κ β : Type} [DecidableEq κ] (m : List (κ × β)) (k : κ) (v : β) :
    alGet (alPut m k v) k = some v := by
  simp [alPut, alGet]

theorem alGet_put {κ β : Type} [DecidableEq κ] (m : List (κ × β)) (k k' : κ) (v : β) :
    alGet (alPut m k v) k' = if k' = k then some v else alGet m k' := by
  by_cases h : k' = k
  · subst h; simp [alPut, alGet]
  · simp [alPut, alGet, alGet_remove, h, Ne.symm h]

theorem valuesAt_remove {κ β : Type} [DecidableEq κ] (m : List (κ × β)) (k : κ) :
    valuesAt (alRemove m k) k = [] := by
  induction m with
  | nil => simp [valuesAt, alRemove]
  | cons hd tl ih =>
      obtain ⟨k2, v⟩ := hd
      by_cases h2 : k2 = k <;> simp [valuesAt, alRemove, h2, ih]

theorem valuesAt_put_self {κ β : Type} [DecidableEq κ] (m : List (κ × β)) (k : κ) (v : β) :
    valuesAt (alPut m k v) k = [v] := by
  simp [alPut, valuesAt, valuesAt_remove]

theorem valuesAt_remove_gen {κ β : Type} [DecidableEq κ] (m : List (κ × β)) (k k' : κ) :
    valuesAt (alRemove m k) k' = if k' = k then [] else valuesAt m k' := by
  induction m with
  | nil => simp [valuesAt, alRemove]
  | cons hd tl ih =>
      obtain ⟨k2, v⟩ := hd
      by_cases h2 : k2 = k
      · subst h2
        by_cases h3 : k' = k2
        · subst h3; simp [alRemove, valuesAt, ih]
        · simp [valuesAt, alRemove, h3, ih, Ne.symm h3]
      · by_cases h3 : k2 = k'
        · subst h3
          simp [valuesAt, alRemove, h2, Ne.symm h2, ih]
        · simp [valuesAt, alRemove, h2, h3, ih]

theorem valuesAt_put_gen {κ β : Type} [DecidableEq κ] (m : List (κ × β)) (k k' : κ) (v : β) :
    valuesAt (alPut m k v) k' = if k' = k then [v] else valuesAt m k' := by
  by_cases h : k' = k
  · subst h; simp [alPut, valuesAt, valuesAt_remove_gen]
  · simp [alPut, valuesAt, valuesAt_remove_gen, h, Ne.symm h]

/-! ## Credential store (C7) -/

/-- C7: `getUserToken` (GetValidAccess) returns NotAuthorized when no
credential is stored; with a stored credential whose expiry is at least the
5-minute margin away it makes zero refresh calls and returns the stored
access token; past the margin it makes exactly one refresh call, persists the
credential with `access` and `expiresAt` replaced (expiry derived from the
refresh response's reported lifetime) and `refresh` replaced only when the
response supplies a nonempty one, returning the new access token; a failed
refresh returns NotAuthorized without modifying the stored credential. -/
theorem getUserToken_spec (userId : String) (tokens : List (String × TokenData))
    (now : Int) (rc : String → Option RefreshResp) :
    (alGet tokens userId = none →
        getUserToken userId tokens now rc = (none, tokens, 0))
  ∧ (∀ td, alGet tokens userId = some td → td.expires - now ≥ 300000 →
        getUserToken userId tokens now rc = (some td.access, tokens, 0))
  ∧ (∀ td r, alGet tokens userId = some td → now > td.expires - 300000 →
        rc td.refresh = some r →
        getUserToken userId tokens now rc =
          (some r.token,
           alPut tokens userId
             { access := r.token,
               refresh :=
                 if r.refreshTokenField = "" then td.refresh
                 else r.refreshTokenField,
               expires := now + r.expiresIn * 1000 }, 1))
  ∧ (∀ td, alGet tokens userId = some td → now > td.expires - 300000 →
        rc td.refresh = none →
        getUserToken userId tokens now rc = (none, tokens, 1)) := by
  refine ⟨?_, ?_, ?_, ?_⟩
  · intro h
    simp [getUserToken, h]
  · intro td h hm
    have hlt : ¬ now > td.expires - 300000 := by omega
    simp [getUserToken, h, hlt]
  · intro td r h hm hrc
    simp [getUserToken, h, hm, hrc]
  · intro td h hm hrc
    simp [getUserToken, h, hm, hrc]

/-- Witness for C7: a credential expiring 4 minutes from now (margin 5
minutes) triggers exactly one refresh; the persisted credential carries the
refreshed access token and an expiry derived from `expires_in`. -/
theorem getUserToken_spec_witness :
    getUserToken "u" [("u", ⟨"oldA", "oldR", 240000⟩)] 0
        (fun _ => some ⟨"newA", "newR", 3600⟩) =
      (some "newA", [("u", ⟨"newA", "newR", 3600000⟩)], 1) := by
  have h := (getUserToken_spec "u" [("u", ⟨"oldA", "oldR", 240000⟩)] 0
      (fun _ => some ⟨"newA", "newR", 3600⟩)).2.2.1
      ⟨"oldA", "oldR", 240000⟩ ⟨"newA", "newR", 3600⟩ (by decide) (by decide) rfl
  exact h.trans (by decide)

/-- The result and the approval calls of the matched branch do not depend on
the pledge ledger beyond the already-looked-up entry: states with the same
token storage give the same result and calls. -/
theorem matchedBranch_result_tokens (cmd : EscrowCommand) (pa paId : String)
    (mp : PledgeData) (s s' : EscrowState) (now : Int)
    (rc : String → Option RefreshResp) (ac : String → Nat → String → ApproveOutcome)
    (hst : s.tokens = s'.tokens) :
    (matchedBranch cmd pa paId mp s now rc ac).1 =
      (matchedBranch cmd pa paId mp s' now rc ac).1 ∧
    (matchedBranch cmd pa paId mp s now rc ac).2.2 =
      (matchedBranch cmd pa paId mp s' now rc ac).2.2 := by
  simp only [matchedBranch, hst]
  rcases h1 : (getUserToken cmd.userAId s'.tokens now rc).1 with _ | a <;>
    rcases h2 : (getUserToken paId (getUserToken cmd.userAId s'.tokens now rc).2.1 now rc).1 with _ | b <;>
    simp only [h1, h2]
  · constructor <;> trivial
  · constructor <;> trivial
  · constructor <;> trivial
  · rcases h3 : ac cmd.repoFullName cmd.prNumber a with _ | m1
    · rcases h4 : ac mp.repo mp.prNumber b with _ | m2 <;> simp only [h3, h4] <;>
        constructor <;> trivial
    · simp only [h3]
      constructor <;> trivial

/-- The result and the approval calls of the created branch depend only on
the token storage. -/
theorem createdBranch_result_tokens (cmd : EscrowCommand) (pa : String)
    (s s' : EscrowState) (now : Int) (rc : String → Option RefreshResp)
    (hst : s.tokens = s'.tokens) :
    (createdBranch cmd pa s now rc).1 = (createdBranch cmd pa s' now rc).1 ∧
    (createdBranch cmd pa s now rc).2.2 = (createdBranch cmd pa s' now rc).2.2 := by
  simp only [createdBranch, hst]
  rcases h1 : (getUserToken cmd.userAId s'.tokens now rc).1 with _ | a <;>
    simp only [h1] <;> constructor <;> trivial

/-! ## Self-approval guard (C8) -/

/-- C8: a command whose target author equals the offeror is rejected with
the self-approval error before any storage access: the result depends on no
stored data, the ledger and credential state are returned unchanged, and no
approval call is made. -/
theorem selfApproval_rejected (cmd : EscrowCommand) (s : EscrowState) (now : Int)
    (rc : String → Option RefreshResp) (ac : String → Nat → String → ApproveOutcome)
    (h : cmd.prAuthor = some cmd.userA) :
    processEscrow cmd s now rc ac = (.selfApprovalRejected cmd.userA, s, []) := by
  simp [processEscrow, h]

/-- Witness for C8 at a concrete self-targeted command. -/
theorem selfApproval_rejected_witness :
    processEscrow ⟨"a", "ida", 1, "r", some "a", some "ida", "u", "i"⟩
        ⟨[((("a", "b") : String × String), ⟨7, "x", 0⟩)], [("ida", ⟨"t", "rf", 900000⟩)]⟩
        0 (fun _ => none) (fun _ _ _ => .ok) =
      (.selfApprovalRejected "a",
       ⟨[((("a", "b") : String × String), ⟨7, "x", 0⟩)], [("ida", ⟨"t", "rf", 900000⟩)]⟩, []) :=
  selfApproval_rejected _ _ _ _ _ rfl

/-! ## Created path and the offeror credential check (C1) -/

/-- Counterexample to C1: with no matching reverse pledge and no stored
credential for the offeror, the call returns the awaiting-authorization
result but the pledge keyed (offeror, targetAuthor) is NOT in the ledger
afterwards — the ledger stays empty. -/
theorem created_path_cex :
    processEscrow ⟨"alice", "idAlice", 5, "o/r", some "bob", some "idBob", "hw", "in1"⟩
        ⟨[], []⟩ 0 (fun _ => none) (fun _ _ _ => .ok) =
      (.awaitingAuthorizationCreated "alice" "hw/oauth/authorize?state=in1", ⟨[], []⟩, [])
    ∧ alGet (processEscrow ⟨"alice", "idAlice", 5, "o/r", some "bob", some "idBob", "hw", "in1"⟩
        ⟨[], []⟩ 0 (fun _ => none) (fun _ _ _ => .ok)).2.1.pledges ("alice", "bob") = none := by
  constructor
  · rfl
  · rfl

/-- C1 (amended): on the Created path the offeror credential check is a
precondition, not advisory: when the offeror has no stored credential the
call returns AwaitingAuthorization(offeror, authorizeUrl), no pledge is
recorded, the whole state is unchanged, and no approval call is made. -/
theorem created_path_requires_credential (cmd : EscrowCommand) (s : EscrowState)
    (now : Int) (rc : String → Option RefreshResp)
    (ac : String → Nat → String → ApproveOutcome) (pa paId : String)
    (hpa : cmd.prAuthor = some pa) (hpid : cmd.prAuthorId = some paId)
    (hself : pa ≠ cmd.userA)
    (hrev : alGet s.pledges (pa, cmd.userA) = none)
    (htok : alGet s.tokens cmd.userAId = none) :
    processEscrow cmd s now rc ac =
      (.awaitingAuthorizationCreated cmd.userA (oauthUrlOf cmd), s, []) := by
  have hne : ¬ cmd.prAuthor = some cmd.userA := by
    rw [hpa]; simp [hself]
  simp [processEscrow, hne, hpa, hpid, hrev, createdBranch, getUserToken, htok, hself]

/-! ## Matched path and pledge consumption (C2) -/

/-- Counterexample to C2: a command that finds a matching reverse pledge but
where both credentials are missing returns the awaiting-authorization result
while the matched pledge is STILL in the ledger afterwards — it was not
consumed by the match step. -/
theorem matched_error_keeps_pledge_cex :
    (processEscrow ⟨"ann", "idAnn", 9, "a/r", some "ben", some "idBen", "wv", "in9"⟩
        ⟨[((("ben", "ann") : String × String), ⟨3, "b/r", 10⟩)], []⟩ 0
        (fun _ => none) (fun _ _ _ => .ok)).1 =
      .awaitingAuthorizationMatched "ann" "ben" .bothMissing "wv/oauth/authorize?state=in9"
    ∧ alGet (processEscrow ⟨"ann", "idAnn", 9, "a/r", some "ben", some "idBen", "wv", "in9"⟩
        ⟨[((("ben", "ann") : String × String), ⟨3, "b/r", 10⟩)], []⟩ 0
        (fun _ => none) (fun _ _ _ => .ok)).2.1.pledges ("ben", "ann") = some ⟨3, "b/r", 10⟩ := by
  constructor
  · rfl
  · rfl

/-- C2 (amended): the matched pledge is NOT removed by the match step; it is
deleted only after both credentials resolve and both approval calls succeed.
A missing credential on the matched path returns AwaitingAuthorization and a
failed approval call returns ApprovalFailed, and in both cases the pledge
ledger is unchanged — the matched pledge is still stored. -/
theorem matched_path_errors_keep_pledge (cmd : EscrowCommand) (s : EscrowState)
    (now : Int) (rc : String → Option RefreshResp)
    (ac : String → Nat → String → ApproveOutcome) (pa paId : String) (mp : PledgeData)
    (hpa : cmd.prAuthor = some pa) (hpid : cmd.prAuthorId = some paId)
    (hself : pa ≠ cmd.userA)
    (hrev : alGet s.pledges (pa, cmd.userA) = some mp) :
    ((getUserToken cmd.userAId s.tokens now rc).1 = none ∨
        (getUserToken paId (getUserToken cmd.userAId s.tokens now rc).2.1 now rc).1 = none →
      (∃ who, (processEscrow cmd s now rc ac).1 =
          .awaitingAuthorizationMatched cmd.userA pa who (oauthUrlOf cmd)) ∧
        (processEscrow cmd s now rc ac).2.1.pledges = s.pledges)
  ∧ (∀ a b msg, (getUserToken cmd.userAId s.tokens now rc).1 = some a →
      (getUserToken paId (getUserToken cmd.userAId s.tokens now rc).2.1 now rc).1 = some b →
      (ac cmd.repoFullName cmd.prNumber a = .err msg ∨
        (ac cmd.repoFullName cmd.prNumber a = .ok ∧ ac mp.repo mp.prNumber b = .err msg)) →
      (processEscrow cmd s now rc ac).1 = .approvalFailed msg ∧
        (processEscrow cmd s now rc ac).2.1.pledges = s.pledges) := by
  have hne : ¬ cmd.prAuthor = some cmd.userA := by
    rw [hpa]; simp [hself]
  have hstep : processEscrow cmd s now rc ac = matchedBranch cmd pa paId mp s now rc ac := by
    simp [processEscrow, hne, hpa, hpid, hrev, hself]
  constructor
  · intro hmiss
    rcases h1 : (getUserToken cmd.userAId s.tokens now rc).1 with _ | a
    · rcases h2 : (getUserToken paId (getUserToken cmd.userAId s.tokens now rc).2.1 now rc).1 with _ | b
      · exact ⟨⟨.bothMissing, by simp [hstep, matchedBranch, h1, h2]⟩,
          by simp [hstep, matchedBranch, h1, h2]⟩
      · exact ⟨⟨.offerorMissing, by simp [hstep, matchedBranch, h1, h2]⟩,
          by simp [hstep, matchedBranch, h1, h2]⟩
    · rcases h2 : (getUserToken paId (getUserToken cmd.userAId s.tokens now rc).2.1 now rc).1 with _ | b
      · exact ⟨⟨.targetMissing, by simp [hstep, matchedBranch, h1, h2]⟩,
          by simp [hstep, matchedBranch, h1, h2]⟩
      · rcases hmiss with hm | hm
        · rw [h1] at hm; exact absurd hm (by simp)
        · rw [h2] at hm; exact absurd hm (by simp)
  · intro a b msg h1 h2 hfail
    rcases hfail with hf | ⟨hok, hf⟩
    · constructor <;> simp [hstep, matchedBranch, h1, h2, hf]
    · constructor <;> simp [hstep, matchedBranch, h1, h2, hok, hf]

/-- Witness for C2 (amended): with both credentials stored and a failing
approval client, the matched command reports ApprovalFailed and the matched
pledge is still in the ledger. -/
theorem matched_path_errors_keep_pledge_witness :
    (processEscrow ⟨"fred", "idF", 4, "f/r", some "gina", some "idG", "wz", "in3"⟩
        ⟨[((("gina", "fred") : String × String), ⟨6, "g/r", 2⟩)],
         [("idF", ⟨"tf", "rf", 800000⟩), ("idG", ⟨"tg", "rg", 800000⟩)]⟩ 0
        (fun _ => none) (fun _ _ _ => .err "boom")).1 = .approvalFailed "boom"
    ∧ (processEscrow ⟨"fred", "idF", 4, "f/r", some "gina", some "idG", "wz", "in3"⟩
        ⟨[((("gina", "fred") : String × String), ⟨6, "g/r", 2⟩)],
         [("idF", ⟨"tf", "rf", 800000⟩), ("idG", ⟨"tg", "rg", 800000⟩)]⟩ 0
        (fun _ => none) (fun _ _ _ => .err "boom")).2.1.pledges =
      [((("gina", "fred") : String × String), ⟨6, "g/r", 2⟩)] :=
  (matched_path_errors_keep_pledge _ _ _ _ _ "gina" "idG" ⟨6, "g/r", 2⟩ rfl rfl
      (by decide) (by decide)).2 "tf" "tg" "boom" (by decide) (by decide) (Or.inl rfl)

/-- Witness for C1 (amended) at a concrete command with a populated ledger. -/
theorem created_path_requires_credential_witness :
    processEscrow ⟨"carol", "idC", 8, "c/r", some "dave", some "idD", "wu", "in2"⟩
        ⟨[((("carol", "erin") : String × String), ⟨2, "e/r", 1⟩)], [("idD", ⟨"td", "rd", 999999999⟩)]⟩
        50 (fun _ => none) (fun _ _ _ => .ok) =
      (.awaitingAuthorizationCreated "carol" "wu/oauth/authorize?state=in2",
       ⟨[((("carol", "erin") : String × String), ⟨2, "e/r", 1⟩)], [("idD", ⟨"td", "rd", 999999999⟩)]⟩, []) :=
  created_path_requires_credential _ _ _ _ _ "dave" "idD" rfl rfl
    (by decide) (by decide) (by decide)

/-! ## Match-or-create as a direct keyed lookup (C3) -/

/-- Counterexample to C3: the entry keyed by the reverse pair exists, yet it
is not deleted and the result is not a match result — the target author's
credential is missing, so the command returns awaiting-authorization and the
reverse entry is still stored. -/
theorem tryMatchOrCreate_cex :
    (processEscrow ⟨"hugo", "idH", 11, "h/r", some "iris", some "idI", "wy", "in4"⟩
        ⟨[((("iris", "hugo") : String × String), ⟨5, "i/r", 3⟩)], [("idH", ⟨"th", "rh", 700000⟩)]⟩ 0
        (fun _ => none) (fun _ _ _ => .ok)).1 =
      .awaitingAuthorizationMatched "hugo" "iris" .targetMissing "wy/oauth/authorize?state=in4"
    ∧ alGet (processEscrow ⟨"hugo", "idH", 11, "h/r", some "iris", some "idI", "wy", "in4"⟩
        ⟨[((("iris", "hugo") : String × String), ⟨5, "i/r", 3⟩)], [("idH", ⟨"th", "rh", 700000⟩)]⟩ 0
        (fun _ => none) (fun _ _ _ => .ok)).2.1.pledges ("iris", "hugo") = some ⟨5, "i/r", 3⟩ := by
  constructor
  · rfl
  · rfl

/-- C3 (amended): the match decision is a direct keyed lookup of the single
entry keyed by the reverse pair (targetAuthor, offeror), not a scan: states
agreeing on that one entry and on the token storage produce the same result
and approval calls.  When the entry exists it is deleted and the result
carries that partner pledge's item data — but only provided both credentials
resolve and both approvals succeed; when it does not exist a new entry keyed
(offeror, targetAuthor) with the command's item data is inserted and the
result is the pledge-created result — but only provided the offeror's
credential resolves. -/
theorem tryMatchOrCreate_keyed (cmd : EscrowCommand) (now : Int)
    (rc : String → Option RefreshResp) (ac : String → Nat → String → ApproveOutcome)
    (pa paId : String)
    (hpa : cmd.prAuthor = some pa) (hpid : cmd.prAuthorId = some paId)
    (hself : pa ≠ cmd.userA) :
    (∀ s s' : EscrowState, s.tokens = s'.tokens →
        alGet s.pledges (pa, cmd.userA) = alGet s'.pledges (pa, cmd.userA) →
        (processEscrow cmd s now rc ac).1 = (processEscrow cmd s' now rc ac).1 ∧
        (processEscrow cmd s now rc ac).2.2 = (processEscrow cmd s' now rc ac).2.2)
  ∧ (∀ s : EscrowState, ∀ mp a b, alGet s.pledges (pa, cmd.userA) = some mp →
      (getUserToken cmd.userAId s.tokens now rc).1 = some a →
      (getUserToken paId (getUserToken cmd.userAId s.tokens now rc).2.1 now rc).1 = some b →
      ac cmd.repoFullName cmd.prNumber a = .ok →
      ac mp.repo mp.prNumber b = .ok →
      (processEscrow cmd s now rc ac).1 =
        .mutualApprovalCompleted cmd.userA pa cmd.prNumber cmd.repoFullName mp ∧
      alGet (processEscrow cmd s now rc ac).2.1.pledges (pa, cmd.userA) = none)
  ∧ (∀ s : EscrowState, ∀ a, alGet s.pledges (pa, cmd.userA) = none →
      (getUserToken cmd.userAId s.tokens now rc).1 = some a →
      (processEscrow cmd s now rc ac).1 = .pledgeCreated cmd.userA pa cmd.prNumber ∧
      alGet (processEscrow cmd s now rc ac).2.1.pledges (cmd.userA, pa) =
        some ⟨cmd.prNumber, cmd.repoFullName, now⟩) := by
  have hne : ¬ cmd.prAuthor = some cmd.userA := by
    rw [hpa]; simp [hself]
  refine ⟨?_, ?_, ?_⟩
  · intro s s' hst hpl
    rcases hl : alGet s.pledges (pa, cmd.userA) with _ | mp
    · have hl' : alGet s'.pledges (pa, cmd.userA) = none := by rw [← hpl, hl]
      have e1 : processEscrow cmd s now rc ac = createdBranch cmd pa s now rc := by
        simp [processEscrow, hne, hpa, hpid, hl, hself]
      have e2 : processEscrow cmd s' now rc ac = createdBranch cmd pa s' now rc := by
        simp [processEscrow, hne, hpa, hpid, hl', hself]
      rw [e1, e2]
      exact createdBranch_result_tokens cmd pa s s' now rc hst
    · have hl' : alGet s'.pledges (pa, cmd.userA) = some mp := by rw [← hpl, hl]
      have e1 : processEscrow cmd s now rc ac = matchedBranch cmd pa paId mp s now rc ac := by
        simp [processEscrow, hne, hpa, hpid, hl, hself]
      have e2 : processEscrow cmd s' now rc ac = matchedBranch cmd pa paId mp s' now rc ac := by
        simp [processEscrow, hne, hpa, hpid, hl', hself]
      rw [e1, e2]
      exact matchedBranch_result_tokens cmd pa paId mp s s' now rc ac hst
  · intro s mp a b hl h1 h2 hok1 hok2
    have e1 : processEscrow cmd s now rc ac = matchedBranch cmd pa paId mp s now rc ac := by
      simp [processEscrow, hne, hpa, hpid, hl, hself]
    constructor
    · simp [e1, matchedBranch, h1, h2, hok1, hok2]
    · simp [e1, matchedBranch, h1, h2, hok1, hok2, alGet_remove]
  · intro s a hl h1
    have e1 : processEscrow cmd s now rc ac = createdBranch cmd pa s now rc := by
      simp [processEscrow, hne, hpa, hpid, hl, hself]
    constructor
    · simp [e1, createdBranch, h1]
    · simp [e1, createdBranch, h1, alGet_put_self]

/-- Witness for C3 (amended): a concrete matched command with both
credentials stored and a succeeding approval client completes the mutual
approval and deletes the reverse-keyed entry. -/
theorem tryMatchOrCreate_keyed_witness :
    (processEscrow ⟨"jack", "idJ", 12, "j/r", some "kate", some "idK", "wq", "in5"⟩
        ⟨[((("kate", "jack") : String × String), ⟨7, "k/r", 4⟩)],
         [("idJ", ⟨"tj", "rj", 600000⟩), ("idK", ⟨"tk", "rk", 600000⟩)]⟩ 0
        (fun _ => none) (fun _ _ _ => .ok)).1 =
      .mutualApprovalCompleted "jack" "kate" 12 "j/r" ⟨7, "k/r", 4⟩
    ∧ alGet (processEscrow ⟨"jack", "idJ", 12, "j/r", some "kate", some "idK", "wq", "in5"⟩
        ⟨[((("kate", "jack") : String × String), ⟨7, "k/r", 4⟩)],
         [("idJ", ⟨"tj", "rj", 600000⟩), ("idK", ⟨"tk", "rk", 600000⟩)]⟩ 0
        (fun _ => none) (fun _ _ _ => .ok)).2.1.pledges ("kate", "jack") = none :=
  (tryMatchOrCreate_keyed ⟨"jack", "idJ", 12, "j/r", some "kate", some "idK", "wq", "in5"⟩
      0 (fun _ => none) (fun _ _ _ => .ok) "kate" "idK" rfl rfl (by decide)).2.1
    ⟨[((("kate", "jack") : String × String), ⟨7, "k/r", 4⟩)],
     [("idJ", ⟨"tj", "rj", 600000⟩), ("idK", ⟨"tk", "rk", 600000⟩)]⟩
    ⟨7, "k/r", 4⟩ "tj" "tk" (by decide) (by decide) (by decide) rfl rfl

/-! ## Per-command ledger case analysis -/

/-- How one command changes the pledge ledger: either it is untouched (and
the result neither consumes nor creates a pledge), or exactly the consumed
key — which held the matched pledge — is deleted, or exactly the created
key — whose components are distinct and whose reverse key was absent — is
inserted with the command's item data. -/
theorem processEscrow_pledges_cases (cmd : EscrowCommand) (s : EscrowState)
    (now : Int) (rc : String → Option RefreshResp)
    (ac : String → Nat → String → ApproveOutcome) :
    ((processEscrow cmd s now rc ac).2.1.pledges = s.pledges ∧
      consumedKey (processEscrow cmd s now rc ac).1 = none ∧
      createdKey (processEscrow cmd s now rc ac).1 = none)
  ∨ (∃ k mp, consumedKey (processEscrow cmd s now rc ac).1 = some k ∧
      createdKey (processEscrow cmd s now rc ac).1 = none ∧
      alGet s.pledges k = some mp ∧
      (processEscrow cmd s now rc ac).2.1.pledges = alRemove s.pledges k)
  ∨ (∃ k, createdKey (processEscrow cmd s now rc ac).1 = some k ∧
      consumedKey (processEscrow cmd s now rc ac).1 = none ∧
      k.1 ≠ k.2 ∧ alGet s.pledges (k.2, k.1) = none ∧
      (processEscrow cmd s now rc ac).2.1.pledges =
        alPut s.pledges k ⟨cmd.prNumber, cmd.repoFullName, now⟩) := by
  by_cases hself : cmd.prAuthor = some cmd.userA
  · left
    simp [processEscrow, hself, consumedKey, createdKey]
  · rcases hpa : cmd.prAuthor with _ | pa
    · left
      simp [processEscrow, hpa, consumedKey, createdKey]
    · rcases hpid : cmd.prAuthorId with _ | paId
      · left
        rw [hpa] at hself
        simp [processEscrow, hpa, hpid, hself, consumedKey, createdKey]
      · have hpane : pa ≠ cmd.userA := by
          intro h
          apply hself
          rw [hpa, h]
        rcases hrev : alGet s.pledges (pa, cmd.userA) with _ | mp
        · have e1 : processEscrow cmd s now rc ac = createdBranch cmd pa s now rc := by
            simp [processEscrow, hpa, hpid, hrev, hpane]
          rcases h1 : (getUserToken cmd.userAId s.tokens now rc).1 with _ | a
          · left
            simp [e1, createdBranch, h1, consumedKey, createdKey]
          · right; right
            refine ⟨(cmd.userA, pa), ?_, ?_, ?_, ?_, ?_⟩
            · simp [e1, createdBranch, h1, createdKey]
            · simp [e1, createdBranch, h1, consumedKey]
            · exact Ne.symm hpane
            · exact hrev
            · simp [e1, createdBranch, h1]
        · have e1 : processEscrow cmd s now rc ac = matchedBranch cmd pa paId mp s now rc ac := by
            simp [processEscrow, hpa, hpid, hrev, hpane]
          rcases h1 : (getUserToken cmd.userAId s.tokens now rc).1 with _ | a <;>
            rcases h2 : (getUserToken paId (getUserToken cmd.userAId s.tokens now rc).2.1 now rc).1 with _ | b
          · left
            simp [e1, matchedBranch, h1, h2, consumedKey, createdKey]
          · left
            simp [e1, matchedBranch, h1, h2, consumedKey, createdKey]
          · left
            simp [e1, matchedBranch, h1, h2, consumedKey, createdKey]
          · rcases h3 : ac cmd.repoFullName cmd.prNumber a with _ | m1
            · rcases h4 : ac mp.repo mp.prNumber b with _ | m2
              · right; left
                refine ⟨(pa, cmd.userA), mp, ?_, ?_, ?_, ?_⟩
                · simp [e1, matchedBranch, h1, h2, h3, h4, consumedKey]
                · simp [e1, matchedBranch, h1, h2, h3, h4, createdKey]
                · exact hrev
                · simp [e1, matchedBranch, h1, h2, h3, h4]
              · left
                simp [e1, matchedBranch, h1, h2, h3, h4, consumedKey, createdKey]
            · left
              simp [e1, matchedBranch, h1, h2, h3, consumedKey, createdKey]

/-! ## Last-write-wins on the pledge key (C6) -/

/-- C6: a second create for the same ordered pair (offeror, targetAuthor),
arriving before the first pledge is matched, overwrites the first: afterwards
the key holds exactly one entry, the new command's item data, and the earlier
pledge's data is gone.  Moreover every command preserves at-most-one-entry-
per-key in the ledger. -/
theorem pledge_last_write_wins (cmd : EscrowCommand) (s : EscrowState)
    (now : Int) (rc : String → Option RefreshResp)
    (ac : String → Nat → String → ApproveOutcome) (pa paId a : String) (d1 : PledgeData)
    (hpa : cmd.prAuthor = some pa) (hpid : cmd.prAuthorId = some paId)
    (hself : pa ≠ cmd.userA)
    (hrev : alGet s.pledges (pa, cmd.userA) = none)
    (hold : alGet s.pledges (cmd.userA, pa) = some d1)
    (htok : (getUserToken cmd.userAId s.tokens now rc).1 = some a) :
    ((processEscrow cmd s now rc ac).1 = .pledgeCreated cmd.userA pa cmd.prNumber
      ∧ alGet (processEscrow cmd s now rc ac).2.1.pledges (cmd.userA, pa) =
          some ⟨cmd.prNumber, cmd.repoFullName, now⟩
      ∧ valuesAt (processEscrow cmd s now rc ac).2.1.pledges (cmd.userA, pa) =
          [⟨cmd.prNumber, cmd.repoFullName, now⟩])
    ∧ ((∀ k, (valuesAt s.pledges k).length ≤ 1) →
        ∀ k, (valuesAt (processEscrow cmd s now rc ac).2.1.pledges k).length ≤ 1) := by
  have e1 : processEscrow cmd s now rc ac = createdBranch cmd pa s now rc := by
    simp [processEscrow, hpa, hpid, hrev, hself]
  refine ⟨⟨?_, ?_, ?_⟩, ?_⟩
  · simp [e1, createdBranch, htok]
  · simp [e1, createdBranch, htok, alGet_put_self]
  · simp [e1, createdBranch, htok, valuesAt_put_self]
  · intro hu k
    rcases processEscrow_pledges_cases cmd s now rc ac with
      ⟨hp, _, _⟩ | ⟨k', mp, _, _, _, hp⟩ | ⟨k', _, _, _, _, hp⟩
    · rw [hp]
      exact hu k
    · rw [hp, valuesAt_remove_gen]
      by_cases hx : k = k'
      · simp [hx]
      · simpa [hx] using hu k
    · rw [hp, valuesAt_put_gen]
      by_cases hx : k = k'
      · simp [hx]
      · simpa [hx] using hu k

/-- Witness for C6: the concrete second create for ("ned", "olga") replaces
the earlier pledge data with the new item, leaving a single entry. -/
theorem pledge_last_write_wins_witness :
    (processEscrow ⟨"ned", "idN", 33, "new/r", some "olga", some "idO", "wq3", "in7"⟩
        ⟨[((("ned", "olga") : String × String), ⟨1, "old/r", 0⟩)],
         [("idN", ⟨"tn", "rn", 700000⟩)]⟩ 5 (fun _ => none) (fun _ _ _ => .ok)).1 =
      .pledgeCreated "ned" "olga" 33
    ∧ alGet (processEscrow ⟨"ned", "idN", 33, "new/r", some "olga", some "idO", "wq3", "in7"⟩
        ⟨[((("ned", "olga") : String × String), ⟨1, "old/r", 0⟩)],
         [("idN", ⟨"tn", "rn", 700000⟩)]⟩ 5 (fun _ => none) (fun _ _ _ => .ok)).2.1.pledges
        ("ned", "olga") = some ⟨33, "new/r", 5⟩
    ∧ valuesAt (processEscrow ⟨"ned", "idN", 33, "new/r", some "olga", some "idO", "wq3", "in7"⟩
        ⟨[((("ned", "olga") : String × String), ⟨1, "old/r", 0⟩)],
         [("idN", ⟨"tn", "rn", 700000⟩)]⟩ 5 (fun _ => none) (fun _ _ _ => .ok)).2.1.pledges
        ("ned", "olga") = [⟨33, "new/r", 5⟩] :=
  (pledge_last_write_wins _ _ _ _ _ "olga" "idO" "tn" ⟨1, "old/r", 0⟩ rfl rfl
      (by decide) (by decide) (by decide) (by decide)).1


/-! ## One direction per pair (C10) -/

/-- C10: no reachable state holds both directions of a pair: if for every
pair of distinct users at most one of the keys (A, B), (B, A) is present,
the same holds after any command — a pledge (A, B) is only inserted when the
same atomic step found (B, A) absent, and the matched path never inserts. -/
theorem pledge_direction_exclusive (cmd : EscrowCommand) (s : EscrowState)
    (now : Int) (rc : String → Option RefreshResp)
    (ac : String → Nat → String → ApproveOutcome)
    (hinv : ∀ A B : String, A ≠ B →
      alGet s.pledges (A, B) = none ∨ alGet s.pledges (B, A) = none) :
    ∀ A B : String, A ≠ B →
      alGet (processEscrow cmd s now rc ac).2.1.pledges (A, B) = none ∨
      alGet (processEscrow cmd s now rc ac).2.1.pledges (B, A) = none := by
  intro A B hAB
  rcases processEscrow_pledges_cases cmd s now rc ac with
    ⟨hp, _, _⟩ | ⟨k, mp, _, _, _, hp⟩ | ⟨k, _, _, hk, hrev, hp⟩
  · rw [hp]
    exact hinv A B hAB
  · rcases hinv A B hAB with h | h
    · left
      rw [hp, alGet_remove]
      simp [h]
    · right
      rw [hp, alGet_remove]
      simp [h]
  · by_cases h1 : (A, B) = k
    · right
      have h2 : ¬ ((B, A) = k) := by
        intro h2
        rw [← h1] at h2
        exact hAB (congrArg Prod.fst h2).symm
      have hk2 : ((B : String), (A : String)) = (k.2, k.1) := by rw [← h1]
      rw [hp, alGet_put, if_neg h2, hk2]
      exact hrev
    · by_cases h2 : (B, A) = k
      · left
        rw [hp, alGet_put, if_neg h1]
        have : (A, B) = (k.2, k.1) := by rw [← h2]
        rw [this]
        exact hrev
      · rcases hinv A B hAB with h | h
        · left
          rw [hp, alGet_put, if_neg h1]
          exact h
        · right
          rw [hp, alGet_put, if_neg h2]
          exact h

/-- Witness for C10: from a state satisfying the invariant (empty ledger),
after a concrete pledge-creating command at most one direction of the pair
("lena", "milo") is present. -/
theorem pledge_direction_exclusive_witness :
    alGet (processEscrow ⟨"lena", "idL", 2, "l/r", some "milo", some "idM", "wq4", "in8"⟩
        ⟨[], [("idL", ⟨"tl", "rl", 500000⟩)]⟩ 0 (fun _ => none)
        (fun _ _ _ => .ok)).2.1.pledges ("lena", "milo") = none ∨
    alGet (processEscrow ⟨"lena", "idL", 2, "l/r", some "milo", some "idM", "wq4", "in8"⟩
        ⟨[], [("idL", ⟨"tl", "rl", 500000⟩)]⟩ 0 (fun _ => none)
        (fun _ _ _ => .ok)).2.1.pledges ("milo", "lena") = none :=
  pledge_direction_exclusive ⟨"lena", "idL", 2, "l/r", some "milo", some "idM", "wq4", "in8"⟩
    ⟨[], [("idL", ⟨"tl", "rl", 500000⟩)]⟩ 0 (fun _ => none) (fun _ _ _ => .ok)
    (fun _ _ _ => Or.inl rfl) "lena" "milo" (by decide)


/-! ## No duplicate match (C4) -/

/-- A mutual-approval result implies the consumed key was present before the
command and is absent after it. -/
theorem consumed_present_absent (cmd : EscrowCommand) (s : EscrowState)
    (now : Int) (rc : String → Option RefreshResp)
    (ac : String → Nat → String → ApproveOutcome) (k : String × String)
    (h : consumedKey (processEscrow cmd s now rc ac).1 = some k) :
    (alGet s.pledges k).isSome = true ∧
    alGet (processEscrow cmd s now rc ac).2.1.pledges k = none := by
  rcases processEscrow_pledges_cases cmd s now rc ac with
    ⟨_, hc, _⟩ | ⟨k2, mp, hc, _, hg, hp⟩ | ⟨k2, _, hc, _, _, _⟩
  · rw [hc] at h
    cases h
  · rw [hc] at h
    injection h with h
    subst h
    refine ⟨by rw [hg]; rfl, ?_⟩
    rw [hp, alGet_remove]
    simp
  · rw [hc] at h
    cases h

/-- A key that was absent and is present after a command was inserted by that
command: its result is the pledge-created result for that key. -/
theorem presence_needs_create (cmd : EscrowCommand) (s : EscrowState)
    (now : Int) (rc : String → Option RefreshResp)
    (ac : String → Nat → String → ApproveOutcome) (k : String × String)
    (h0 : alGet s.pledges k = none)
    (h1 : alGet (processEscrow cmd s now rc ac).2.1.pledges k ≠ none) :
    createdKey (processEscrow cmd s now rc ac).1 = some k := by
  rcases processEscrow_pledges_cases cmd s now rc ac with
    ⟨hp, _, _⟩ | ⟨k2, mp, _, _, _, hp⟩ | ⟨k2, hcr, _, _, _, hp⟩
  · rw [hp] at h1
    exact absurd h0 h1
  · rw [hp, alGet_remove] at h1
    by_cases hx : k = k2
    · simp [hx] at h1
    · simp [hx, h0] at h1
  · rw [hp, alGet_put] at h1
    by_cases hx : k = k2
    · subst hx
      exact hcr
    · simp [hx, h0] at h1

/-- In a run starting from a state where a key is absent, a result consuming
that key must be preceded by a result that created it. -/
theorem run_consume_needs_create (rc : String → Option RefreshResp)
    (ac : String → Nat → String → ApproveOutcome) (k : String × String) :
    ∀ (cmds : List (EscrowCommand × Int)) (s : EscrowState) (l : Nat) (rl : EscrowResult),
      alGet s.pledges k = none →
      (runEscrow rc ac s cmds).1[l]? = some rl →
      consumedKey rl = some k →
      ∃ m rm, m < l ∧ (runEscrow rc ac s cmds).1[m]? = some rm ∧
        createdKey rm = some k := by
  intro cmds
  induction cmds with
  | nil =>
      intro s l rl h0 hl hc
      simp [runEscrow] at hl
  | cons ct rest ih =>
      obtain ⟨c, t⟩ := ct
      intro s l rl h0 hl hc
      rcases l with _ | lp
      · have hr0 : (runEscrow rc ac s ((c, t) :: rest)).1[0]? =
            some (processEscrow c s t rc ac).1 := by
          simp [runEscrow]
        rw [hr0] at hl
        injection hl with hl
        subst hl
        have hpres := (consumed_present_absent c s t rc ac k hc).1
        rw [h0] at hpres
        simp at hpres
      · have hr : (runEscrow rc ac s ((c, t) :: rest)).1[lp + 1]? =
            (runEscrow rc ac (processEscrow c s t rc ac).2.1 rest).1[lp]? := by
          simp [runEscrow]
        rw [hr] at hl
        rcases h1 : alGet (processEscrow c s t rc ac).2.1.pledges k with _ | v
        · obtain ⟨m, rm, hm, hget, hcr⟩ :=
            ih (processEscrow c s t rc ac).2.1 lp rl h1 hl hc
          refine ⟨m + 1, rm, by omega, ?_, hcr⟩
          simpa [runEscrow] using hget
        · have hcr0 : createdKey (processEscrow c s t rc ac).1 = some k := by
            apply presence_needs_create c s t rc ac k h0
            rw [h1]
            simp
          refine ⟨0, (processEscrow c s t rc ac).1, by omega, ?_, hcr0⟩
          simp [runEscrow]

/-- C4: in any serialized sequence of commands on one partition, two
mutual-approval completions consuming the same pledge key are separated by a
command that created that key anew — a stored pledge yields at most one
completion and cannot be matched twice. -/
theorem no_double_match (rc : String → Option RefreshResp)
    (ac : String → Nat → String → ApproveOutcome) (k : String × String) :
    ∀ (cmds : List (EscrowCommand × Int)) (s : EscrowState) (i j : Nat)
      (ri rj : EscrowResult),
      i < j →
      (runEscrow rc ac s cmds).1[i]? = some ri → consumedKey ri = some k →
      (runEscrow rc ac s cmds).1[j]? = some rj → consumedKey rj = some k →
      ∃ m rm, i < m ∧ m < j ∧ (runEscrow rc ac s cmds).1[m]? = some rm ∧
        createdKey rm = some k := by
  intro cmds
  induction cmds with
  | nil =>
      intro s i j ri rj hij hi hci hj hcj
      simp [runEscrow] at hi
  | cons ct rest ih =>
      obtain ⟨c, t⟩ := ct
      intro s i j ri rj hij hi hci hj hcj
      rcases i with _ | ip
      · have hr0 : (runEscrow rc ac s ((c, t) :: rest)).1[0]? =
            some (processEscrow c s t rc ac).1 := by
          simp [runEscrow]
        rw [hr0] at hi
        injection hi with hi
        subst hi
        have habs := (consumed_present_absent c s t rc ac k hci).2
        rcases j with _ | jp
        · omega
        · have hrj : (runEscrow rc ac s ((c, t) :: rest)).1[jp + 1]? =
              (runEscrow rc ac (processEscrow c s t rc ac).2.1 rest).1[jp]? := by
            simp [runEscrow]
          rw [hrj] at hj
          obtain ⟨m, rm, hm, hget, hcr⟩ :=
            run_consume_needs_create rc ac k rest (processEscrow c s t rc ac).2.1
              jp rj habs hj hcj
          refine ⟨m + 1, rm, by omega, by omega, ?_, hcr⟩
          simpa [runEscrow] using hget
      · rcases j with _ | jp
        · omega
        · have hri : (runEscrow rc ac s ((c, t) :: rest)).1[ip + 1]? =
              (runEscrow rc ac (processEscrow c s t rc ac).2.1 rest).1[ip]? := by
            simp [runEscrow]
          have hrj : (runEscrow rc ac s ((c, t) :: rest)).1[jp + 1]? =
              (runEscrow rc ac (processEscrow c s t rc ac).2.1 rest).1[jp]? := by
            simp [runEscrow]
          rw [hri] at hi
          rw [hrj] at hj
          obtain ⟨m, rm, hm1, hm2, hget, hcr⟩ :=
            ih (processEscrow c s t rc ac).2.1 ip jp ri rj (by omega) hi hci hj hcj
          refine ⟨m + 1, rm, by omega, by omega, ?_, hcr⟩
          simpa [runEscrow] using hget

/-- Witness for C4: a four-command run (pledge, match, re-pledge, match) in
which the two completions at positions 1 and 3 consume the same key; the
theorem yields the intervening re-creation. -/
theorem no_double_match_witness :
    ∃ m rm, 1 < m ∧ m < 3 ∧
      (runEscrow (fun _ => none) (fun _ _ _ => .ok)
        ⟨[], [("idP", ⟨"tp", "rp", 900000000⟩), ("idQ", ⟨"tq", "rq", 900000000⟩)]⟩
        [(⟨"pia", "idP", 21, "p/r", some "quinn", some "idQ", "w9", "i9"⟩, 0),
         (⟨"quinn", "idQ", 22, "q/r", some "pia", some "idP", "w9", "i9"⟩, 0),
         (⟨"pia", "idP", 23, "p/r2", some "quinn", some "idQ", "w9", "i9"⟩, 0),
         (⟨"quinn", "idQ", 24, "q/r2", some "pia", some "idP", "w9", "i9"⟩, 0)]).1[m]? =
        some rm ∧
      createdKey rm = some ("pia", "quinn") :=
  no_double_match (fun _ => none) (fun _ _ _ => .ok) ("pia", "quinn")
    [(⟨"pia", "idP", 21, "p/r", some "quinn", some "idQ", "w9", "i9"⟩, 0),
     (⟨"quinn", "idQ", 22, "q/r", some "pia", some "idP", "w9", "i9"⟩, 0),
     (⟨"pia", "idP", 23, "p/r2", some "quinn", some "idQ", "w9", "i9"⟩, 0),
     (⟨"quinn", "idQ", 24, "q/r2", some "pia", some "idP", "w9", "i9"⟩, 0)]
    ⟨[], [("idP", ⟨"tp", "rp", 900000000⟩), ("idQ", ⟨"tq", "rq", 900000000⟩)]⟩
    1 3 (.mutualApprovalCompleted "quinn" "pia" 22 "q/r" ⟨21, "p/r", 0⟩)
    (.mutualApprovalCompleted "quinn" "pia" 24 "q/r2" ⟨23, "p/r2", 0⟩)
    (by omega) (by decide) (by decide) (by decide) (by decide)


/-! ## Round trip (C5) -/

/-- Counterexample to C5: in the round trip the approval calls are
[("r2", 20, tokenB), ("r1", 10, tokenA)] — the second command's offeror's
credential (tokenB) approves item 20/"r2", NOT item 10/"r1" as claimed: no
call approves item 10/"r1" with the offeror's credential. -/
theorem round_trip_attribution_cex :
    (processEscrow ⟨"B", "idB", 20, "r2", some "A", some "idA", "wu5", "s5"⟩
        (processEscrow ⟨"A", "idA", 10, "r1", some "B", some "idB", "wu5", "s5"⟩
          ⟨[], [("idA", ⟨"tokA", "rA", 900000000⟩), ("idB", ⟨"tokB", "rB", 900000000⟩)]⟩
          0 (fun _ => none) (fun _ _ _ => .ok)).2.1
        0 (fun _ => none) (fun _ _ _ => .ok)).2.2 =
      [("r2", 20, "tokB"), ("r1", 10, "tokA")]
    ∧ ¬ (("r1", (10 : Nat), "tokB") ∈
        (processEscrow ⟨"B", "idB", 20, "r2", some "A", some "idA", "wu5", "s5"⟩
          (processEscrow ⟨"A", "idA", 10, "r1", some "B", some "idB", "wu5", "s5"⟩
            ⟨[], [("idA", ⟨"tokA", "rA", 900000000⟩), ("idB", ⟨"tokB", "rB", 900000000⟩)]⟩
            0 (fun _ => none) (fun _ _ _ => .ok)).2.1
          0 (fun _ => none) (fun _ _ _ => .ok)).2.2) := by
  constructor
  · rfl
  · decide

/-- C5 (amended): the round trip from empty state with both credentials
stored and a succeeding approval client: the first command returns the
pledge-created result and records ("A","B") ↦ item 10/"r1"; the second
command invokes the approval client exactly twice — the offeror's (B's)
credential approving item 20/"r2" and the target author's (A's) credential
approving item 10/"r1" — returns the completion referencing item 10/"r1"
and item 20/"r2", and leaves the partition with no stored pledges. -/
theorem round_trip :
    processEscrow ⟨"A", "idA", 10, "r1", some "B", some "idB", "wu5", "s5"⟩
        ⟨[], [("idA", ⟨"tokA", "rA", 900000000⟩), ("idB", ⟨"tokB", "rB", 900000000⟩)]⟩
        0 (fun _ => none) (fun _ _ _ => .ok) =
      (.pledgeCreated "A" "B" 10,
       ⟨[((("A", "B") : String × String), ⟨10, "r1", 0⟩)],
        [("idA", ⟨"tokA", "rA", 900000000⟩), ("idB", ⟨"tokB", "rB", 900000000⟩)]⟩, [])
    ∧ (processEscrow ⟨"B", "idB", 20, "r2", some "A", some "idA", "wu5", "s5"⟩
        ⟨[((("A", "B") : String × String), ⟨10, "r1", 0⟩)],
         [("idA", ⟨"tokA", "rA", 900000000⟩), ("idB", ⟨"tokB", "rB", 900000000⟩)]⟩
        0 (fun _ => none) (fun _ _ _ => .ok)).1 =
      .mutualApprovalCompleted "B" "A" 20 "r2" ⟨10, "r1", 0⟩
    ∧ (processEscrow ⟨"B", "idB", 20, "r2", some "A", some "idA", "wu5", "s5"⟩
        ⟨[((("A", "B") : String × String), ⟨10, "r1", 0⟩)],
         [("idA", ⟨"tokA", "rA", 900000000⟩), ("idB", ⟨"tokB", "rB", 900000000⟩)]⟩
        0 (fun _ => none) (fun _ _ _ => .ok)).2.1.pledges = []
    ∧ (processEscrow ⟨"B", "idB", 20, "r2", some "A", some "idA", "wu5", "s5"⟩
        ⟨[((("A", "B") : String × String), ⟨10, "r1", 0⟩)],
         [("idA", ⟨"tokA", "rA", 900000000⟩), ("idB", ⟨"tokB", "rB", 900000000⟩)]⟩
        0 (fun _ => none) (fun _ _ _ => .ok)).2.2 =
      [("r2", 20, "tokB"), ("r1", 10, "tokA")] := by
  refine ⟨rfl, rfl, rfl, rfl⟩

/-! ## Result wire form (C9) -/

/-- Counterexample to C9: the engine does not emit the claimed closed set of
six tags carrying only structured data — two different outcomes
(self-rejection and unknown author) serialize with the SAME tag "error",
distinguished only by engine-produced presentation text in the message. -/
theorem result_wire_form_cex :
    (processEscrow ⟨"rex", "idR", 3, "r/r", some "rex", some "idR", "w7", "i7"⟩
        ⟨[], []⟩ 0 (fun _ => none) (fun _ _ _ => .ok)).1 ≠
      (processEscrow ⟨"sam", "idS", 3, "r/r", none, none, "w7", "i7"⟩
        ⟨[], []⟩ 0 (fun _ => none) (fun _ _ _ => .ok)).1
    ∧ (renderResult (processEscrow ⟨"rex", "idR", 3, "r/r", some "rex", some "idR", "w7", "i7"⟩
        ⟨[], []⟩ 0 (fun _ => none) (fun _ _ _ => .ok)).1).type = "error"
    ∧ (renderResult (processEscrow ⟨"sam", "idS", 3, "r/r", none, none, "w7", "i7"⟩
        ⟨[], []⟩ 0 (fun _ => none) (fun _ _ _ => .ok)).1).type = "error"
    ∧ (renderResult (processEscrow ⟨"rex", "idR", 3, "r/r", some "rex", some "idR", "w7", "i7"⟩
        ⟨[], []⟩ 0 (fun _ => none) (fun _ _ _ => .ok)).1).message =
      "\u274c @rex you cannot use /escrow-approve on your own PR. The escrow system is for mutual approval between different users." := by
  refine ⟨by decide, rfl, rfl, rfl⟩

/-- C9 (amended): every result is one of the seven structured outcome
variants of the engine, but on the wire it carries one of only three tags
("error", "pledge", "success"), with the human-readable message produced by
the engine itself. -/
theorem result_wire_form (cmd : EscrowCommand) (s : EscrowState) (now : Int)
    (rc : String → Option RefreshResp)
    (ac : String → Nat → String → ApproveOutcome) :
    ((renderResult (processEscrow cmd s now rc ac).1).type = "error" ∨
     (renderResult (processEscrow cmd s now rc ac).1).type = "pledge" ∨
     (renderResult (processEscrow cmd s now rc ac).1).type = "success")
    ∧ ((∃ ua, (processEscrow cmd s now rc ac).1 = .selfApprovalRejected ua) ∨
       (processEscrow cmd s now rc ac).1 = .authorUnknown ∨
       (∃ ua pa who url, (processEscrow cmd s now rc ac).1 =
          .awaitingAuthorizationMatched ua pa who url) ∨
       (∃ reason, (processEscrow cmd s now rc ac).1 = .approvalFailed reason) ∨
       (∃ ua pa n repo partner, (processEscrow cmd s now rc ac).1 =
          .mutualApprovalCompleted ua pa n repo partner) ∨
       (∃ ua url, (processEscrow cmd s now rc ac).1 =
          .awaitingAuthorizationCreated ua url) ∨
       (∃ ua pa n, (processEscrow cmd s now rc ac).1 = .pledgeCreated ua pa n)) := by
  constructor
  · cases h : (processEscrow cmd s now rc ac).1 <;> simp [renderResult]
  · cases h : (processEscrow cmd s now rc ac).1 <;> simp
